import Mathlib

/-!
Shallow embedding of the TurtleInterpreter recursive-descent parser
(src/Parser.cpp) and the spec-described AST evaluation, with theorems
checking the specification claims against the code.

The C++ parser is a stateful object (fields `lookahead_`, `attribute_`,
`lineno_`, the scanner, and the statement vector `AST_`) whose grammar
procedures signal errors with C++ exceptions; member state survives stack
unwinding.  We embed it as explicit state passing: every procedure maps a
`ParserState` to a `PResult`, and an error result carries the state at the
moment of the throw, exactly as the C++ members survive the exception.
Unbounded mutual recursion is made total with an explicit fuel argument;
running out of fuel is a distinct outcome (`PError.outOfFuel`) that never
arises on the inputs of the theorems below.
-/

namespace TurtleParser

/-- Token categories, from the `Token` enumeration used by Parser.cpp. -/
inductive Token where
  | IDENT | REAL | ASSIGN
  | WHILE | DO | OD
  | IF | THEN | ELSIF | ELSE | FI
  | HOME | PENUP | PENDOWN | FORWARD | LEFT | RIGHT | PUSHSTATE | POPSTATE
  | PLUS | MINUS | MULT | DIV | LPAREN | RPAREN
  | OR | AND | NOT
  | EQ | NE | LT | GT | GE | LE
  | EOT
  deriving DecidableEq

/-- The scanner attribute record: a name for identifiers, a numeric value
for real literals.  The C++ float field is modelled as `Rat`; every
literal appearing in the theorems below is exactly representable as a
binary float, so the two semantics agree there. -/
structure Attr where
  s : String
  f : Rat

/-- Expression AST nodes; constructor names follow src/Parser.cpp
(`new VarExpr`, `new ConstExpr`, ..., `new e_q`, ...). -/
inductive Expr where
  | VarExpr (name : String)
  | ConstExpr (val : Rat)
  | NegExpr (e : Expr)
  | NotExpr (e : Expr)
  | AddExpr (a b : Expr)
  | SubExpr (a b : Expr)
  | MulExpr (a b : Expr)
  | DivExpr (a b : Expr)
  | OrBool (a b : Expr)
  | AndBool (a b : Expr)
  | e_q (a b : Expr)
  | n_e (a b : Expr)
  | l_t (a b : Expr)
  | g_t (a b : Expr)
  | g_e (a b : Expr)
  | l_e (a b : Expr)

/-- Statement AST nodes; constructor names follow src/Parser.cpp.  The C++
`IfStmt` holds a possibly-null `Stmt*` else part, modelled as `Option`. -/
inductive Stmt where
  | AssignStmt (name : String) (e : Expr)
  | HomeStmt
  | PenUpStmt
  | PenDownStmt
  | PushStateStmt
  | PopStateStmt
  | ForwardStmt (e : Expr)
  | LeftStmt (e : Expr)
  | RightStmt (e : Expr)
  | BlockStmt (stmts : List Stmt)
  | WhileStmt (cond : Expr) (body : Stmt)
  | IfStmt (cond : Expr) (body : Stmt) (elsePart : Option Stmt)

/-- One scanner delivery: the token together with what `nextToken` writes
into the by-reference `attribute_` and `lineno_` arguments. -/
structure ScanTok where
  tok : Token
  attr : Attr
  line : Nat

/-- The parser object state: lookahead buffer, shared attribute and line
number, the remaining scanner output, and the `AST_` statement vector. -/
structure ParserState where
  lookahead_ : Token
  attribute_ : Attr
  lineno_ : Nat
  toks : List ScanTok
  AST_ : List Stmt

/-- Parse errors: `parseError` models a thrown `std::runtime_error` with
its message; `outOfFuel` is the artifact of bounding the recursion. -/
inductive PError where
  | parseError (msg : String)
  | outOfFuel

/-- Outcome of a grammar procedure: a value with the updated parser state,
or an exception with the state at the throw (C++ members survive the
unwinding). -/
inductive PResult (α : Type) where
  | ok (a : α) (s : ParserState)
  | err (e : PError) (s : ParserState)

/-- `scanner_.nextToken(attribute_, lineno_)`: pop the next scanner
delivery into the state.  The scanner contract leaves calls after
end-of-text undefined; the model keeps returning `EOT` then. -/
def nextTok (s : ParserState) : ParserState :=
  match s.toks with
  | [] => { s with lookahead_ := Token.EOT }
  | d :: rest =>
      { lookahead_ := d.tok, attribute_ := d.attr, lineno_ := d.line,
        toks := rest, AST_ := s.AST_ }

/-- `tokenToString`, used only to format mismatch messages. -/
def tokenToString : Token → String
  | Token.IDENT => "IDENT" | Token.REAL => "REAL" | Token.ASSIGN => ":="
  | Token.WHILE => "while" | Token.DO => "do" | Token.OD => "od"
  | Token.IF => "if" | Token.THEN => "then" | Token.ELSIF => "elsif"
  | Token.ELSE => "else" | Token.FI => "fi"
  | Token.HOME => "home" | Token.PENUP => "penup" | Token.PENDOWN => "pendown"
  | Token.FORWARD => "forward" | Token.LEFT => "left" | Token.RIGHT => "right"
  | Token.PUSHSTATE => "pushstate" | Token.POPSTATE => "popstate"
  | Token.PLUS => "+" | Token.MINUS => "-" | Token.MULT => "*" | Token.DIV => "/"
  | Token.LPAREN => "(" | Token.RPAREN => ")"
  | Token.OR => "or" | Token.AND => "and" | Token.NOT => "not"
  | Token.EQ => "=" | Token.NE => "<>" | Token.LT => "<" | Token.GT => ">"
  | Token.GE => ">=" | Token.LE => "<=" | Token.EOT => "EOT"

/-- `Parser::match`: compare the expected token with the lookahead; on
mismatch throw without touching the scanner, on match advance by one
scanner delivery. -/
def matchTok (tok : Token) (s : ParserState) : PResult Unit :=
  if tok ≠ s.lookahead_ then
    PResult.err (PError.parseError
      ("Unexpected token " ++ tokenToString s.lookahead_ ++
       ", Expecting " ++ tokenToString tok)) s
  else
    PResult.ok () (nextTok s)

/-- The eleven-token continuation condition of `Parser::block`. -/
def isStmtStart (t : Token) : Bool :=
  t = Token.WHILE || t = Token.IF || t = Token.IDENT ||
  t = Token.HOME || t = Token.PENUP || t = Token.PENDOWN ||
  t = Token.FORWARD || t = Token.LEFT || t = Token.RIGHT ||
  t = Token.PUSHSTATE || t = Token.POPSTATE

mutual

/-- The `+`/`-` loop of `Parser::expr`, folding onto the accumulator. -/
def exprLoop : Nat → Expr → ParserState → PResult Expr
  | 0, _, s => PResult.err PError.outOfFuel s
  | fuel+1, e, s =>
    if s.lookahead_ = Token.PLUS ∨ s.lookahead_ = Token.MINUS then
      let op := s.lookahead_
      match matchTok s.lookahead_ s with
      | PResult.err er s1 => PResult.err er s1
      | PResult.ok _ s1 =>
        match term fuel s1 with
        | PResult.err er s2 => PResult.err er s2
        | PResult.ok t s2 =>
          if op = Token.PLUS then exprLoop fuel (Expr.AddExpr e t) s2
          else exprLoop fuel (Expr.SubExpr e t) s2
    else PResult.ok e s

/-- `Parser::expr`: a term, then the `+`/`-` loop. -/
def expr : Nat → ParserState → PResult Expr
  | 0, s => PResult.err PError.outOfFuel s
  | fuel+1, s =>
    match term fuel s with
    | PResult.err e s1 => PResult.err e s1
    | PResult.ok e s1 => exprLoop fuel e s1

/-- The `*`/`/` loop of `Parser::term`. -/
def termLoop : Nat → Expr → ParserState → PResult Expr
  | 0, _, s => PResult.err PError.outOfFuel s
  | fuel+1, e, s =>
    if s.lookahead_ = Token.MULT ∨ s.lookahead_ = Token.DIV then
      let op := s.lookahead_
      match matchTok s.lookahead_ s with
      | PResult.err er s1 => PResult.err er s1
      | PResult.ok _ s1 =>
        match factor fuel s1 with
        | PResult.err er s2 => PResult.err er s2
        | PResult.ok t s2 =>
          if op = Token.MULT then termLoop fuel (Expr.MulExpr e t) s2
          else termLoop fuel (Expr.DivExpr e t) s2
    else PResult.ok e s

/-- `Parser::term`: a factor, then the `*`/`/` loop. -/
def term : Nat → ParserState → PResult Expr
  | 0, s => PResult.err PError.outOfFuel s
  | fuel+1, s =>
    match factor fuel s with
    | PResult.err e s1 => PResult.err e s1
    | PResult.ok e s1 => termLoop fuel e s1

/-- `Parser::factor`: unary `+` returns the inner factor unchanged, unary
`-` wraps in `NegExpr`, parentheses return the inner expression, IDENT
and REAL capture the attribute before advancing, else throw. -/
def factor : Nat → ParserState → PResult Expr
  | 0, s => PResult.err PError.outOfFuel s
  | fuel+1, s =>
    match s.lookahead_ with
    | Token.PLUS =>
        match matchTok Token.PLUS s with
        | PResult.err e s1 => PResult.err e s1
        | PResult.ok _ s1 => factor fuel s1
    | Token.MINUS =>
        match matchTok Token.MINUS s with
        | PResult.err e s1 => PResult.err e s1
        | PResult.ok _ s1 =>
          match factor fuel s1 with
          | PResult.err e s2 => PResult.err e s2
          | PResult.ok e s2 => PResult.ok (Expr.NegExpr e) s2
    | Token.LPAREN =>
        match matchTok Token.LPAREN s with
        | PResult.err e s1 => PResult.err e s1
        | PResult.ok _ s1 =>
          match expr fuel s1 with
          | PResult.err e s2 => PResult.err e s2
          | PResult.ok e s2 =>
            match matchTok Token.RPAREN s2 with
            | PResult.err e s3 => PResult.err e s3
            | PResult.ok _ s3 => PResult.ok e s3
    | Token.IDENT =>
        let name := s.attribute_.s
        match matchTok Token.IDENT s with
        | PResult.err e s1 => PResult.err e s1
        | PResult.ok _ s1 => PResult.ok (Expr.VarExpr name) s1
    | Token.REAL =>
        let val := s.attribute_.f
        match matchTok Token.REAL s with
        | PResult.err e s1 => PResult.err e s1
        | PResult.ok _ s1 => PResult.ok (Expr.ConstExpr val) s1
    | _ => PResult.err (PError.parseError "Expecting factor!") s

end

/-- `Parser::cmp`: an expression, exactly one comparison operator, and a
second expression; throws if no comparison operator follows. -/
def cmp : Nat → ParserState → PResult Expr
  | 0, s => PResult.err PError.outOfFuel s
  | fuel+1, s =>
    match expr fuel s with
    | PResult.err e s1 => PResult.err e s1
    | PResult.ok e s1 =>
      match s1.lookahead_ with
      | Token.EQ =>
          match matchTok Token.EQ s1 with
          | PResult.err er s2 => PResult.err er s2
          | PResult.ok _ s2 =>
            match expr fuel s2 with
            | PResult.err er s3 => PResult.err er s3
            | PResult.ok t s3 => PResult.ok (Expr.e_q e t) s3
      | Token.NE =>
          match matchTok Token.NE s1 with
          | PResult.err er s2 => PResult.err er s2
          | PResult.ok _ s2 =>
            match expr fuel s2 with
            | PResult.err er s3 => PResult.err er s3
            | PResult.ok t s3 => PResult.ok (Expr.n_e e t) s3
      | Token.LT =>
          match matchTok Token.LT s1 with
          | PResult.err er s2 => PResult.err er s2
          | PResult.ok _ s2 =>
            match expr fuel s2 with
            | PResult.err er s3 => PResult.err er s3
            | PResult.ok t s3 => PResult.ok (Expr.l_t e t) s3
      | Token.GT =>
          match matchTok Token.GT s1 with
          | PResult.err er s2 => PResult.err er s2
          | PResult.ok _ s2 =>
            match expr fuel s2 with
            | PResult.err er s3 => PResult.err er s3
            | PResult.ok t s3 => PResult.ok (Expr.g_t e t) s3
      | Token.GE =>
          match matchTok Token.GE s1 with
          | PResult.err er s2 => PResult.err er s2
          | PResult.ok _ s2 =>
            match expr fuel s2 with
            | PResult.err er s3 => PResult.err er s3
            | PResult.ok t s3 => PResult.ok (Expr.g_e e t) s3
      | Token.LE =>
          match matchTok Token.LE s1 with
          | PResult.err er s2 => PResult.err er s2
          | PResult.ok _ s2 =>
            match expr fuel s2 with
            | PResult.err er s3 => PResult.err er s3
            | PResult.ok t s3 => PResult.ok (Expr.l_e e t) s3
      | _ => PResult.err (PError.parseError "Error cmp().") s1

mutual

/-- The `or` loop of `Parser::_bool`; unlike the `and` loop it consumes
the operator with `match(Token::OR)`. -/
def boolLoop : Nat → Expr → ParserState → PResult Expr
  | 0, _, s => PResult.err PError.outOfFuel s
  | fuel+1, e, s =>
    if s.lookahead_ = Token.OR then
      match matchTok Token.OR s with
      | PResult.err er s1 => PResult.err er s1
      | PResult.ok _ s1 =>
        match bool_term fuel s1 with
        | PResult.err er s2 => PResult.err er s2
        | PResult.ok t s2 => boolLoop fuel (Expr.OrBool e t) s2
    else PResult.ok e s

/-- `Parser::_bool`: a bool term, then the `or` loop. -/
def _bool : Nat → ParserState → PResult Expr
  | 0, s => PResult.err PError.outOfFuel s
  | fuel+1, s =>
    match bool_term fuel s with
    | PResult.err e s1 => PResult.err e s1
    | PResult.ok e s1 => boolLoop fuel e s1

/-- The `and` loop of `Parser::bool_term`, faithful to the source: the
loop tests `lookahead_ == Token::AND` but never calls `match(Token::AND)`,
so `bool_factor` is re-entered with the `and` token still in the
lookahead. -/
def boolTermLoop : Nat → Expr → ParserState → PResult Expr
  | 0, _, s => PResult.err PError.outOfFuel s
  | fuel+1, e, s =>
    if s.lookahead_ = Token.AND then
      match bool_factor fuel s with
      | PResult.err er s1 => PResult.err er s1
      | PResult.ok t s1 => boolTermLoop fuel (Expr.AndBool e t) s1
    else PResult.ok e s

/-- `Parser::bool_term`: a bool factor, then the (defective) `and` loop. -/
def bool_term : Nat → ParserState → PResult Expr
  | 0, s => PResult.err PError.outOfFuel s
  | fuel+1, s =>
    match bool_factor fuel s with
    | PResult.err e s1 => PResult.err e s1
    | PResult.ok e s1 => boolTermLoop fuel e s1

/-- `Parser::bool_factor`: `not` recursion, parenthesized bool, or a
comparison. -/
def bool_factor : Nat → ParserState → PResult Expr
  | 0, s => PResult.err PError.outOfFuel s
  | fuel+1, s =>
    match s.lookahead_ with
    | Token.NOT =>
        match matchTok Token.NOT s with
        | PResult.err e s1 => PResult.err e s1
        | PResult.ok _ s1 =>
          match bool_factor fuel s1 with
          | PResult.err e s2 => PResult.err e s2
          | PResult.ok e s2 => PResult.ok (Expr.NotExpr e) s2
    | Token.LPAREN =>
        match matchTok Token.LPAREN s with
        | PResult.err e s1 => PResult.err e s1
        | PResult.ok _ s1 =>
          match _bool fuel s1 with
          | PResult.err e s2 => PResult.err e s2
          | PResult.ok e s2 =>
            match matchTok Token.RPAREN s2 with
            | PResult.err e s3 => PResult.err e s3
            | PResult.ok _ s3 => PResult.ok e s3
    | _ => cmp fuel s

end

/-- `Parser::assign`: reads `attribute_.s` as the name — after `stmt` has
already advanced past the IDENT token — then `:=` and an expression. -/
def assign : Nat → ParserState → PResult Stmt
  | 0, s => PResult.err PError.outOfFuel s
  | fuel+1, s =>
    let name := s.attribute_.s
    match matchTok Token.ASSIGN s with
    | PResult.err e s1 => PResult.err e s1
    | PResult.ok _ s1 =>
      match expr fuel s1 with
      | PResult.err e s2 => PResult.err e s2
      | PResult.ok e s2 => PResult.ok (Stmt.AssignStmt name e) s2

/-- `Parser::action`: the eight turtle primitives, else throw. -/
def action : Nat → ParserState → PResult Stmt
  | 0, s => PResult.err PError.outOfFuel s
  | fuel+1, s =>
    match s.lookahead_ with
    | Token.HOME =>
        match matchTok Token.HOME s with
        | PResult.err e s1 => PResult.err e s1
        | PResult.ok _ s1 => PResult.ok Stmt.HomeStmt s1
    | Token.PENUP =>
        match matchTok Token.PENUP s with
        | PResult.err e s1 => PResult.err e s1
        | PResult.ok _ s1 => PResult.ok Stmt.PenUpStmt s1
    | Token.PENDOWN =>
        match matchTok Token.PENDOWN s with
        | PResult.err e s1 => PResult.err e s1
        | PResult.ok _ s1 => PResult.ok Stmt.PenDownStmt s1
    | Token.FORWARD =>
        match matchTok Token.FORWARD s with
        | PResult.err e s1 => PResult.err e s1
        | PResult.ok _ s1 =>
          match expr fuel s1 with
          | PResult.err e s2 => PResult.err e s2
          | PResult.ok e s2 => PResult.ok (Stmt.ForwardStmt e) s2
    | Token.LEFT =>
        match matchTok Token.LEFT s with
        | PResult.err e s1 => PResult.err e s1
        | PResult.ok _ s1 =>
          match expr fuel s1 with
          | PResult.err e s2 => PResult.err e s2
          | PResult.ok e s2 => PResult.ok (Stmt.LeftStmt e) s2
    | Token.RIGHT =>
        match matchTok Token.RIGHT s with
        | PResult.err e s1 => PResult.err e s1
        | PResult.ok _ s1 =>
          match expr fuel s1 with
          | PResult.err e s2 => PResult.err e s2
          | PResult.ok e s2 => PResult.ok (Stmt.RightStmt e) s2
    | Token.PUSHSTATE =>
        match matchTok Token.PUSHSTATE s with
        | PResult.err e s1 => PResult.err e s1
        | PResult.ok _ s1 => PResult.ok Stmt.PushStateStmt s1
    | Token.POPSTATE =>
        match matchTok Token.POPSTATE s with
        | PResult.err e s1 => PResult.err e s1
        | PResult.ok _ s1 => PResult.ok Stmt.PopStateStmt s1
    | _ => PResult.err (PError.parseError "Expecting turtle action statement!") s

mutual

/-- `Parser::stmt`: dispatch on the lookahead.  Note the C++ matches the
IDENT token here, before `assign` runs. -/
def stmt : Nat → ParserState → PResult Stmt
  | 0, s => PResult.err PError.outOfFuel s
  | fuel+1, s =>
    match s.lookahead_ with
    | Token.IDENT =>
        match matchTok Token.IDENT s with
        | PResult.err e s1 => PResult.err e s1
        | PResult.ok _ s1 => assign fuel s1
    | Token.WHILE =>
        match matchTok Token.WHILE s with
        | PResult.err e s1 => PResult.err e s1
        | PResult.ok _ s1 => while_stmt fuel s1
    | Token.IF =>
        match matchTok Token.IF s with
        | PResult.err e s1 => PResult.err e s1
        | PResult.ok _ s1 => if_stmt fuel s1
    | _ => action fuel s

/-- The do-while loop of `Parser::block`, accumulating `stmtTree`. -/
def blockLoop : Nat → List Stmt → ParserState → PResult (List Stmt)
  | 0, _, s => PResult.err PError.outOfFuel s
  | fuel+1, acc, s =>
    match stmt fuel s with
    | PResult.err e s1 => PResult.err e s1
    | PResult.ok st s1 =>
      if isStmtStart s1.lookahead_ then blockLoop fuel (acc ++ [st]) s1
      else PResult.ok (acc ++ [st]) s1

/-- `Parser::block`: one or more statements, wrapped in a `BlockStmt`. -/
def block : Nat → ParserState → PResult Stmt
  | 0, s => PResult.err PError.outOfFuel s
  | fuel+1, s =>
    match blockLoop fuel [] s with
    | PResult.err e s1 => PResult.err e s1
    | PResult.ok l s1 => PResult.ok (Stmt.BlockStmt l) s1

/-- `Parser::while_stmt`: condition, `do`, body block, `od`. -/
def while_stmt : Nat → ParserState → PResult Stmt
  | 0, s => PResult.err PError.outOfFuel s
  | fuel+1, s =>
    match _bool fuel s with
    | PResult.err e s1 => PResult.err e s1
    | PResult.ok cond s1 =>
      match matchTok Token.DO s1 with
      | PResult.err e s2 => PResult.err e s2
      | PResult.ok _ s2 =>
        match block fuel s2 with
        | PResult.err e s3 => PResult.err e s3
        | PResult.ok body s3 =>
          match matchTok Token.OD s3 with
          | PResult.err e s4 => PResult.err e s4
          | PResult.ok _ s4 => PResult.ok (Stmt.WhileStmt cond body) s4

/-- `Parser::else_part`: `elsif` builds a nested `IfStmt` whose else part
is the recursive result; `else` returns the block after consuming `fi`;
`fi` returns null (here `none`); anything else throws. -/
def else_part : Nat → ParserState → PResult (Option Stmt)
  | 0, s => PResult.err PError.outOfFuel s
  | fuel+1, s =>
    match s.lookahead_ with
    | Token.ELSIF =>
        match matchTok Token.ELSIF s with
        | PResult.err e s1 => PResult.err e s1
        | PResult.ok _ s1 =>
          match _bool fuel s1 with
          | PResult.err e s2 => PResult.err e s2
          | PResult.ok cond s2 =>
            match matchTok Token.THEN s2 with
            | PResult.err e s3 => PResult.err e s3
            | PResult.ok _ s3 =>
              match block fuel s3 with
              | PResult.err e s4 => PResult.err e s4
              | PResult.ok body s4 =>
                match else_part fuel s4 with
                | PResult.err e s5 => PResult.err e s5
                | PResult.ok ep s5 =>
                    PResult.ok (some (Stmt.IfStmt cond body ep)) s5
    | Token.ELSE =>
        match matchTok Token.ELSE s with
        | PResult.err e s1 => PResult.err e s1
        | PResult.ok _ s1 =>
          match block fuel s1 with
          | PResult.err e s2 => PResult.err e s2
          | PResult.ok body s2 =>
            match matchTok Token.FI s2 with
            | PResult.err e s3 => PResult.err e s3
            | PResult.ok _ s3 => PResult.ok (some body) s3
    | Token.FI =>
        match matchTok Token.FI s with
        | PResult.err e s1 => PResult.err e s1
        | PResult.ok _ s1 => PResult.ok none s1
    | _ => PResult.err (PError.parseError "Expecting turtle else_part statement!") s

/-- `Parser::if_stmt`: condition, `then`, body block, else part. -/
def if_stmt : Nat → ParserState → PResult Stmt
  | 0, s => PResult.err PError.outOfFuel s
  | fuel+1, s =>
    match _bool fuel s with
    | PResult.err e s1 => PResult.err e s1
    | PResult.ok cond s1 =>
      match matchTok Token.THEN s1 with
      | PResult.err e s2 => PResult.err e s2
      | PResult.ok _ s2 =>
        match block fuel s2 with
        | PResult.err e s3 => PResult.err e s3
        | PResult.ok body s3 =>
          match else_part fuel s3 with
          | PResult.err e s4 => PResult.err e s4
          | PResult.ok ep s4 => PResult.ok (Stmt.IfStmt cond body ep) s4

end

/-- `Parser::stmt_seq`: while the lookahead is not `EOT`, parse a block
and push it onto `AST_`. -/
def stmt_seq : Nat → ParserState → PResult Unit
  | 0, s => PResult.err PError.outOfFuel s
  | fuel+1, s =>
    if s.lookahead_ ≠ Token.EOT then
      match block fuel s with
      | PResult.err e s1 => PResult.err e s1
      | PResult.ok st s1 => stmt_seq fuel { s1 with AST_ := s1.AST_ ++ [st] }
    else PResult.ok () s



/-- `Parser::prog`: a statement sequence followed by `EOT`. -/
def prog : Nat → ParserState → PResult Unit
  | 0, s => PResult.err PError.outOfFuel s
  | fuel+1, s =>
    match stmt_seq fuel s with
    | PResult.err e s1 => PResult.err e s1
    | PResult.ok _ s1 => matchTok Token.EOT s1

/-- The line-number decoration applied by `Parser::parse` to a caught
exception.  `outOfFuel` is a model artifact with no C++ counterpart and
passes through undecorated. -/
def decorate (lineno : Nat) : PError → PError
  | PError.parseError m => PError.parseError (toString lineno ++ ": " ++ m)
  | PError.outOfFuel => PError.outOfFuel

/-- `Parser::parse`: prime the lookahead from the scanner, run `prog`,
and rewrap any escaping exception with the current line number. -/
def parse (fuel : Nat) (s : ParserState) : PResult Unit :=
  match prog fuel (nextTok s) with
  | PResult.ok a s1 => PResult.ok a s1
  | PResult.err e s1 => PResult.err (decorate s1.lineno_ e) s1

/-- Modelled from the spec: the expression-evaluation semantics of the AST
nodes (spec §4.5); the node `eval` implementations live outside
src/Parser.cpp and are not in the sources.  Floats are modelled as `Rat`;
every literal used below is exactly representable as a binary float, so
the two arithmetics agree on the evaluated claims.  Comparisons and the
boolean connectives yield 0/1 floats; `NotExpr` is the passthrough the
spec flags in §4.4; `Rat` division at zero (yielding 0) differs from the
IEEE semantics the spec assigns, and no claim below touches it. -/
def evalE (env : String → Option Rat) : Expr → Option Rat
  | Expr.VarExpr n => env n
  | Expr.ConstExpr v => some v
  | Expr.NegExpr e =>
      match evalE env e with
      | some x => some (-x)
      | none => none
  | Expr.NotExpr e => evalE env e
  | Expr.AddExpr a b =>
      match evalE env a, evalE env b with
      | some x, some y => some (x + y)
      | _, _ => none
  | Expr.SubExpr a b =>
      match evalE env a, evalE env b with
      | some x, some y => some (x - y)
      | _, _ => none
  | Expr.MulExpr a b =>
      match evalE env a, evalE env b with
      | some x, some y => some (x * y)
      | _, _ => none
  | Expr.DivExpr a b =>
      match evalE env a, evalE env b with
      | some x, some y => some (x / y)
      | _, _ => none
  | Expr.OrBool a b =>
      match evalE env a, evalE env b with
      | some x, some y => some (if x ≠ 0 ∨ y ≠ 0 then 1 else 0)
      | _, _ => none
  | Expr.AndBool a b =>
      match evalE env a, evalE env b with
      | some x, some y => some (if x ≠ 0 ∧ y ≠ 0 then 1 else 0)
      | _, _ => none
  | Expr.e_q a b =>
      match evalE env a, evalE env b with
      | some x, some y => some (if x = y then 1 else 0)
      | _, _ => none
  | Expr.n_e a b =>
      match evalE env a, evalE env b with
      | some x, some y => some (if x ≠ y then 1 else 0)
      | _, _ => none
  | Expr.l_t a b =>
      match evalE env a, evalE env b with
      | some x, some y => some (if x < y then 1 else 0)
      | _, _ => none
  | Expr.g_t a b =>
      match evalE env a, evalE env b with
      | some x, some y => some (if y < x then 1 else 0)
      | _, _ => none
  | Expr.g_e a b =>
      match evalE env a, evalE env b with
      | some x, some y => some (if y ≤ x then 1 else 0)
      | _, _ => none
  | Expr.l_e a b =>
      match evalE env a, evalE env b with
      | some x, some y => some (if x ≤ y then 1 else 0)
      | _, _ => none

/-! Helpers for concrete runs: a fresh parser state over a given scanner
output, and scanner deliveries for operator, literal and identifier
tokens. -/

/-- A parser state before `parse` primes the lookahead: the buffer content
is arbitrary (C++ leaves it uninitialized), the `AST_` vector empty. -/
def mkState (toks : List ScanTok) : ParserState :=
  { lookahead_ := Token.EOT, attribute_ := ⟨"", 0⟩, lineno_ := 0,
    toks := toks, AST_ := [] }

/-- A delivery of a keyword/operator token, attribute left blank. -/
def dTok (t : Token) : ScanTok := ⟨t, ⟨"", 0⟩, 1⟩

/-- A delivery of a REAL literal carrying its numeric attribute. -/
def dReal (v : Rat) : ScanTok := ⟨Token.REAL, ⟨"", v⟩, 1⟩

/-- A delivery of an IDENT carrying its name attribute. -/
def dIdent (n : String) : ScanTok := ⟨Token.IDENT, ⟨n, 0⟩, 1⟩

/-! ## Claim theorems -/

/-- C1: the claim says `bool_term` consumes each `and` token and builds a
left-associative `AndBool` chain.  The code (Parser.cpp:223) tests
`lookahead_ == Token::AND` but never calls `match(Token::AND)`, so on the
stream for `1 < 2 and 3 < 4` it re-enters `bool_factor` with `and` still
in the lookahead and `factor` throws `Expecting factor!` — the `and` is
never consumed and no `AndBool` node is built. -/
theorem C1_bool_term_and_raises :
    bool_term 8 (nextTok (mkState
        [dReal 1, dTok Token.LT, dReal 2, dTok Token.AND,
         dReal 3, dTok Token.LT, dReal 4, dTok Token.EOT]))
      = PResult.err (PError.parseError "Expecting factor!")
          { lookahead_ := Token.AND, attribute_ := ⟨"", 0⟩, lineno_ := 1,
            toks := [dReal 3, dTok Token.LT, dReal 4, dTok Token.EOT],
            AST_ := [] } := by
  rfl

/-- C2: the claim says `assign` captures the identifier name before
advancing past the IDENT token.  In the code, `stmt` (Parser.cpp:46) calls
`match(Token::IDENT)` first — advancing the scanner — and only then does
`assign` (Parser.cpp:55) read `attribute_.s`.  On a scanner that delivers
attribute `"garbage"` together with the `:=` token, the parsed statement
for `x := 5` is therefore named `"garbage"`, not `"x"`. -/
theorem C2_assign_name_after_advance :
    stmt 6 (nextTok (mkState
        [⟨Token.IDENT, ⟨"x", 0⟩, 1⟩, ⟨Token.ASSIGN, ⟨"garbage", 0⟩, 1⟩,
         dReal 5, dTok Token.EOT]))
      = PResult.ok (Stmt.AssignStmt "garbage" (Expr.ConstExpr 5))
          { lookahead_ := Token.EOT, attribute_ := ⟨"", 0⟩, lineno_ := 1,
            toks := [], AST_ := [] } ∧ "garbage" ≠ "x" := by
  exact ⟨by rfl, by decide⟩

/-- C9: when the very first scanner token is end-of-text, `parse`
succeeds (for any recursion budget of at least 2) and the `AST_` list is
left empty: `stmt_seq` exits at once without reaching any statement
procedure and `prog` matches `EOT`. -/
theorem C9_empty_program (fuel : Nat) (t0 : Token) (a0 aE : Attr) (l0 lE : Nat) :
    parse (fuel + 2)
        { lookahead_ := t0, attribute_ := a0, lineno_ := l0,
          toks := [⟨Token.EOT, aE, lE⟩], AST_ := [] }
      = PResult.ok ()
          { lookahead_ := Token.EOT, attribute_ := aE, lineno_ := lE,
            toks := [], AST_ := [] } := by
  simp [parse, prog, stmt_seq, matchTok, nextTok]

/-- C10: `match` called with an expected token different from the
lookahead throws without requesting another token, leaving the whole
parser state (lookahead, attribute, line number, scanner position)
unchanged — the error carries the input state itself; only a successful
`match` advances, by exactly one scanner delivery. -/
theorem C10_match_mismatch_no_advance :
    (∀ (tok : Token) (s : ParserState), tok ≠ s.lookahead_ →
      matchTok tok s = PResult.err (PError.parseError
        ("Unexpected token " ++ tokenToString s.lookahead_ ++
         ", Expecting " ++ tokenToString tok)) s) ∧
    (∀ (tok : Token) (s : ParserState), tok = s.lookahead_ →
      matchTok tok s = PResult.ok () (nextTok s)) := by
  refine ⟨fun tok s h => ?_, fun tok s h => ?_⟩
  · simp [matchTok, h]
  · simp [matchTok, h]

/-- C10 witness: a mismatching `match` (expecting `do`, lookahead `EOT`)
returns the error with the state untouched; a matching one advances. -/
theorem C10_match_mismatch_no_advance_witness :
    matchTok Token.DO (mkState [dTok Token.HOME])
        = PResult.err (PError.parseError "Unexpected token EOT, Expecting do")
            (mkState [dTok Token.HOME]) ∧
    matchTok Token.EOT (mkState [dTok Token.HOME])
        = PResult.ok () (nextTok (mkState [dTok Token.HOME])) :=
  ⟨C10_match_mismatch_no_advance.1 Token.DO (mkState [dTok Token.HOME]) (by decide),
   C10_match_mismatch_no_advance.2 Token.EOT (mkState [dTok Token.HOME]) (by decide)⟩

/-- C8: case analysis of `factor`: a unary `+` returns the inner factor
call unchanged (no wrapper node); a unary `-` wraps the inner factor in
`NegExpr`; a parenthesized expression returns the inner expression node;
IDENT yields `VarExpr` and REAL yields `ConstExpr`, both capturing the
attribute before advancing; every other lookahead throws
`Expecting factor!`. -/
theorem C8_factor_cases :
    (∀ (fuel : Nat) (s : ParserState), s.lookahead_ = Token.PLUS →
      factor (fuel + 1) s = factor fuel (nextTok s)) ∧
    (∀ (fuel : Nat) (s : ParserState) (e : Expr) (s1 : ParserState),
      s.lookahead_ = Token.MINUS → factor fuel (nextTok s) = PResult.ok e s1 →
      factor (fuel + 1) s = PResult.ok (Expr.NegExpr e) s1) ∧
    (∀ (fuel : Nat) (s : ParserState) (e : Expr) (s1 : ParserState),
      s.lookahead_ = Token.LPAREN → expr fuel (nextTok s) = PResult.ok e s1 →
      s1.lookahead_ = Token.RPAREN →
      factor (fuel + 1) s = PResult.ok e (nextTok s1)) ∧
    (∀ (fuel : Nat) (s : ParserState), s.lookahead_ = Token.IDENT →
      factor (fuel + 1) s = PResult.ok (Expr.VarExpr s.attribute_.s) (nextTok s)) ∧
    (∀ (fuel : Nat) (s : ParserState), s.lookahead_ = Token.REAL →
      factor (fuel + 1) s = PResult.ok (Expr.ConstExpr s.attribute_.f) (nextTok s)) ∧
    (∀ (fuel : Nat) (s : ParserState),
      s.lookahead_ ∉ ([Token.PLUS, Token.MINUS, Token.LPAREN,
                       Token.IDENT, Token.REAL] : List Token) →
      factor (fuel + 1) s = PResult.err (PError.parseError "Expecting factor!") s) := by
  refine ⟨fun fuel s h => ?_, fun fuel s e s1 h hf => ?_, fun fuel s e s1 h he hr => ?_,
          fun fuel s h => ?_, fun fuel s h => ?_, fun fuel s h => ?_⟩
  · simp [factor, h, matchTok]
  · simp [factor, h, matchTok, hf]
  · simp [factor, h, matchTok, he, hr]
  · simp [factor, h, matchTok]
  · simp [factor, h, matchTok]
  · cases hl : s.lookahead_ <;> simp_all [factor, matchTok]

/-- A parser state with a given lookahead, attribute and remaining
scanner output, on line 1 with an empty `AST_`; used for concrete runs of
the inner grammar procedures. -/
def midState (t : Token) (a : Attr) (toks : List ScanTok) : ParserState :=
  { lookahead_ := t, attribute_ := a, lineno_ := 1, toks := toks, AST_ := [] }

/-- C8 witness: the `factor` case analysis applied at concrete states for
each branch (`+3`, `-3`, `(2)`, an identifier, a literal, and a `do`
lookahead). -/
theorem C8_factor_cases_witness :
    factor 11 (midState Token.PLUS ⟨"", 0⟩ [dReal 3, dTok Token.EOT])
      = factor 10 (nextTok (midState Token.PLUS ⟨"", 0⟩ [dReal 3, dTok Token.EOT])) ∧
    factor 11 (midState Token.MINUS ⟨"", 0⟩ [dReal 3, dTok Token.EOT])
      = PResult.ok (Expr.NegExpr (Expr.ConstExpr 3)) (midState Token.EOT ⟨"", 0⟩ []) ∧
    factor 11 (midState Token.LPAREN ⟨"", 0⟩ [dReal 2, dTok Token.RPAREN, dTok Token.EOT])
      = PResult.ok (Expr.ConstExpr 2)
          (nextTok (midState Token.RPAREN ⟨"", 0⟩ [dTok Token.EOT])) ∧
    factor 11 (midState Token.IDENT ⟨"v", 0⟩ [dTok Token.EOT])
      = PResult.ok (Expr.VarExpr "v")
          (nextTok (midState Token.IDENT ⟨"v", 0⟩ [dTok Token.EOT])) ∧
    factor 11 (midState Token.REAL ⟨"", 7⟩ [dTok Token.EOT])
      = PResult.ok (Expr.ConstExpr 7)
          (nextTok (midState Token.REAL ⟨"", 7⟩ [dTok Token.EOT])) ∧
    factor 11 (midState Token.DO ⟨"", 0⟩ [])
      = PResult.err (PError.parseError "Expecting factor!")
          (midState Token.DO ⟨"", 0⟩ []) :=
  ⟨C8_factor_cases.1 10 _ rfl,
   C8_factor_cases.2.1 10 _ (Expr.ConstExpr 3) _ rfl (by rfl),
   C8_factor_cases.2.2.1 10 _ (Expr.ConstExpr 2) _ rfl (by rfl) rfl,
   C8_factor_cases.2.2.2.1 10 _ rfl,
   C8_factor_cases.2.2.2.2.1 10 _ rfl,
   C8_factor_cases.2.2.2.2.2 10 _ (by decide)⟩

/-- C5: every error thrown inside the grammar procedures is caught exactly
once by `parse`, decorated with the line number current at the throw, and
rethrown as a single enriched error; a successful `prog` run passes
through untouched (no recovery, no resynchronization).  Concretely, the
spec scenario `forward := 5` aborts the whole parse with
`1: Expecting factor!`. -/
theorem C5_parse_error_decoration :
    (∀ (fuel : Nat) (s : ParserState) (m : String) (s1 : ParserState),
      prog fuel (nextTok s) = PResult.err (PError.parseError m) s1 →
      parse fuel s = PResult.err
        (PError.parseError (toString s1.lineno_ ++ ": " ++ m)) s1) ∧
    (∀ (fuel : Nat) (s : ParserState) (a : Unit) (s1 : ParserState),
      prog fuel (nextTok s) = PResult.ok a s1 →
      parse fuel s = PResult.ok a s1) ∧
    parse 10 (mkState [dTok Token.FORWARD, dTok Token.ASSIGN, dReal 5, dTok Token.EOT])
      = PResult.err (PError.parseError "1: Expecting factor!")
          { lookahead_ := Token.ASSIGN, attribute_ := ⟨"", 0⟩, lineno_ := 1,
            toks := [dReal 5, dTok Token.EOT], AST_ := [] } := by
  refine ⟨fun fuel s m s1 h => ?_, fun fuel s a s1 h => ?_, by rfl⟩
  · simp [parse, h, decorate]
  · simp [parse, h]

/-- C5 witness: the decoration rule applied to the concrete failing run of
`prog` on `forward := 5`. -/
theorem C5_parse_error_decoration_witness :
    parse 10 (mkState [dTok Token.FORWARD, dTok Token.ASSIGN, dReal 5, dTok Token.EOT])
      = PResult.err (PError.parseError "1: Expecting factor!")
          { lookahead_ := Token.ASSIGN, attribute_ := ⟨"", 0⟩, lineno_ := 1,
            toks := [dReal 5, dTok Token.EOT], AST_ := [] } :=
  C5_parse_error_decoration.1 10
    (mkState [dTok Token.FORWARD, dTok Token.ASSIGN, dReal 5, dTok Token.EOT])
    "Expecting factor!"
    { lookahead_ := Token.ASSIGN, attribute_ := ⟨"", 0⟩, lineno_ := 1,
      toks := [dReal 5, dTok Token.EOT], AST_ := [] }
    (by rfl)

/-- The six comparison-operator tokens accepted by `cmp`. -/
def cmpOps : List Token :=
  [Token.EQ, Token.NE, Token.LT, Token.GT, Token.GE, Token.LE]

/-- The comparison node `cmp` builds for each operator token (the final
fallback is unreachable: `cmp` only consults this on members of
`cmpOps`). -/
def cmpNode (t : Token) (a b : Expr) : Expr :=
  if t = Token.NE then Expr.n_e a b
  else if t = Token.LT then Expr.l_t a b
  else if t = Token.GT then Expr.g_t a b
  else if t = Token.GE then Expr.g_e a b
  else if t = Token.LE then Expr.l_e a b
  else Expr.e_q a b

/-- Recognizer for the six comparison node shapes. -/
def isCmpShape : Expr → Bool
  | Expr.VarExpr _ => false
  | Expr.ConstExpr _ => false
  | Expr.NegExpr _ => false
  | Expr.NotExpr _ => false
  | Expr.AddExpr _ _ => false
  | Expr.SubExpr _ _ => false
  | Expr.MulExpr _ _ => false
  | Expr.DivExpr _ _ => false
  | Expr.OrBool _ _ => false
  | Expr.AndBool _ _ => false
  | Expr.e_q _ _ => true
  | Expr.n_e _ _ => true
  | Expr.l_t _ _ => true
  | Expr.g_t _ _ => true
  | Expr.g_e _ _ => true
  | Expr.l_e _ _ => true

/-- `isCmpShape` holds exactly on the six comparison constructors. -/
lemma isCmpShape_iff (r : Expr) :
    isCmpShape r = true ↔
      ∃ a b, r = Expr.e_q a b ∨ r = Expr.n_e a b ∨ r = Expr.l_t a b ∨
             r = Expr.g_t a b ∨ r = Expr.g_e a b ∨ r = Expr.l_e a b := by
  cases r <;> simp [isCmpShape]

/-- C6: `cmp` parses one comparison operator between two arithmetic
expressions: every successful result is one of the six comparison nodes;
when the operator token follows the first expression, the corresponding
node over the two expression results is returned (and, per the concrete
run on `3 < 5 < 7`, the second operator is left unconsumed — exactly one
is parsed); when no comparison operator follows the first expression,
`cmp` throws `Error cmp().` without any bare-expression coercion. -/
theorem C6_cmp_exactly_one_operator :
    (∀ (fuel : Nat) (s : ParserState) (r : Expr) (s1 : ParserState),
      cmp fuel s = PResult.ok r s1 →
      ∃ a b, r = Expr.e_q a b ∨ r = Expr.n_e a b ∨ r = Expr.l_t a b ∨
             r = Expr.g_t a b ∨ r = Expr.g_e a b ∨ r = Expr.l_e a b) ∧
    (∀ (fuel : Nat) (s : ParserState) (e1 : Expr) (s1 : ParserState)
       (op : Token) (e2 : Expr) (s2 : ParserState),
      expr fuel s = PResult.ok e1 s1 → s1.lookahead_ = op → op ∈ cmpOps →
      expr fuel (nextTok s1) = PResult.ok e2 s2 →
      cmp (fuel + 1) s = PResult.ok (cmpNode op e1 e2) s2) ∧
    (∀ (fuel : Nat) (s : ParserState) (e1 : Expr) (s1 : ParserState),
      expr fuel s = PResult.ok e1 s1 → s1.lookahead_ ∉ cmpOps →
      cmp (fuel + 1) s = PResult.err (PError.parseError "Error cmp().") s1) ∧
    cmp 8 (nextTok (mkState
        [dReal 3, dTok Token.LT, dReal 5, dTok Token.LT, dReal 7, dTok Token.EOT]))
      = PResult.ok (Expr.l_t (Expr.ConstExpr 3) (Expr.ConstExpr 5))
          (midState Token.LT ⟨"", 0⟩ [dReal 7, dTok Token.EOT]) := by
  refine ⟨fun fuel s r s1 h => ?_, fun fuel s e1 s1 op e2 s2 he hl hop he2 => ?_,
          fun fuel s e1 s1 he hl => ?_, by rfl⟩
  · rw [← isCmpShape_iff]
    cases fuel with
    | zero => simp [cmp] at h
    | succ n =>
      simp only [cmp] at h
      cases hexpr : expr n s with
      | err e s2 => rw [hexpr] at h; simp at h
      | ok e s2 =>
        rw [hexpr] at h
        dsimp only at h
        cases hlk : s2.lookahead_ <;>
          simp only [hlk] at h <;>
          simp [matchTok, hlk] at h <;>
          (split at h <;>
            first
              | (injection h with h1 h2; subst h1; rfl)
              | injection h)
  · simp only [cmpOps, List.mem_cons, List.not_mem_nil, or_false] at hop
    rcases hop with rfl | rfl | rfl | rfl | rfl | rfl <;>
      simp [cmp, he, hl, matchTok, he2, cmpNode]
  · simp only [cmpOps, List.mem_cons, List.not_mem_nil, or_false] at hl
    push_neg at hl
    cases hlk : s1.lookahead_ <;> simp_all [cmp, he]

/-- C6 witness: the positive rule applied on `3 < 5` and the error rule
applied on an expression followed by `do`. -/
theorem C6_cmp_exactly_one_operator_witness :
    cmp 11 (midState Token.REAL ⟨"", 3⟩ [dTok Token.LT, dReal 5, dTok Token.EOT])
      = PResult.ok (cmpNode Token.LT (Expr.ConstExpr 3) (Expr.ConstExpr 5))
          (midState Token.EOT ⟨"", 0⟩ []) ∧
    cmp 11 (midState Token.REAL ⟨"", 3⟩ [dTok Token.DO])
      = PResult.err (PError.parseError "Error cmp().")
          (midState Token.DO ⟨"", 0⟩ []) :=
  ⟨C6_cmp_exactly_one_operator.2.1 10 _ (Expr.ConstExpr 3)
      (midState Token.LT ⟨"", 0⟩ [dReal 5, dTok Token.EOT]) Token.LT
      (Expr.ConstExpr 5) _ (by rfl) rfl (by decide) (by rfl),
   C6_cmp_exactly_one_operator.2.2.1 10 _ (Expr.ConstExpr 3)
      (midState Token.DO ⟨"", 0⟩ []) (by rfl) (by decide)⟩

/-- C4: the four behaviours of `else_part`: on `fi` it consumes the token
and returns no else branch (`none`); on `else` it returns the block
closed by `fi`; on `elsif` it returns a nested `IfStmt` whose else branch
is the recursive `else_part` result; on any other lookahead it throws.
Moreover a successful `else_part` yields `none` exactly when the
lookahead was `fi`, i.e. when neither `else` nor `elsif` matched. -/
theorem C4_else_part_cases :
    (∀ (fuel : Nat) (s : ParserState), s.lookahead_ = Token.FI →
      else_part (fuel + 1) s = PResult.ok none (nextTok s)) ∧
    (∀ (fuel : Nat) (s : ParserState) (body : Stmt) (s2 : ParserState),
      s.lookahead_ = Token.ELSE →
      block fuel (nextTok s) = PResult.ok body s2 →
      s2.lookahead_ = Token.FI →
      else_part (fuel + 1) s = PResult.ok (some body) (nextTok s2)) ∧
    (∀ (fuel : Nat) (s : ParserState) (cond : Expr) (s2 : ParserState)
       (body : Stmt) (s4 : ParserState) (ep : Option Stmt) (s5 : ParserState),
      s.lookahead_ = Token.ELSIF →
      _bool fuel (nextTok s) = PResult.ok cond s2 →
      s2.lookahead_ = Token.THEN →
      block fuel (nextTok s2) = PResult.ok body s4 →
      else_part fuel s4 = PResult.ok ep s5 →
      else_part (fuel + 1) s = PResult.ok (some (Stmt.IfStmt cond body ep)) s5) ∧
    (∀ (fuel : Nat) (s : ParserState),
      s.lookahead_ ∉ ([Token.ELSIF, Token.ELSE, Token.FI] : List Token) →
      else_part (fuel + 1) s
        = PResult.err (PError.parseError "Expecting turtle else_part statement!") s) ∧
    (∀ (fuel : Nat) (s : ParserState) (r : Option Stmt) (s1 : ParserState),
      else_part fuel s = PResult.ok r s1 →
      (r = none ↔ s.lookahead_ = Token.FI)) := by
  refine ⟨fun fuel s h => ?_, fun fuel s body s2 h hb hfi => ?_,
          fun fuel s cond s2 body s4 ep s5 h hc ht hb hep => ?_,
          fun fuel s h => ?_, fun fuel s r s1 h => ?_⟩
  · simp [else_part, h, matchTok]
  · simp [else_part, h, matchTok, hb, hfi]
  · simp [else_part, h, matchTok, hc, ht, hb, hep]
  · simp only [List.mem_cons, List.not_mem_nil, or_false] at h
    push_neg at h
    cases hl : s.lookahead_ <;> simp_all [else_part]
  · cases fuel with
    | zero => exact absurd h (by simp [else_part])
    | succ n =>
      simp only [else_part] at h
      cases hl : s.lookahead_ <;> simp only [hl] at h
      case ELSIF =>
        simp [matchTok, hl] at h
        cases hb : _bool n (nextTok s) with
        | err e s2 => rw [hb] at h; dsimp only at h; injection h
        | ok cond s2 =>
          rw [hb] at h; dsimp only at h
          by_cases hth : Token.THEN = s2.lookahead_
          · rw [if_pos hth] at h; dsimp only at h
            cases hblk : block n (nextTok s2) with
            | err e s4 => rw [hblk] at h; dsimp only at h; injection h
            | ok body s4 =>
              rw [hblk] at h; dsimp only at h
              cases hep : else_part n s4 with
              | err e s5 => rw [hep] at h; dsimp only at h; injection h
              | ok ep s5 =>
                rw [hep] at h; dsimp only at h
                injection h with h1 h2; subst h1; simp [hl]
          · rw [if_neg hth] at h; dsimp only at h; injection h
      case ELSE =>
        simp [matchTok, hl] at h
        cases hblk : block n (nextTok s) with
        | err e s2 => rw [hblk] at h; dsimp only at h; injection h
        | ok body s2 =>
          rw [hblk] at h; dsimp only at h
          by_cases hfi : Token.FI = s2.lookahead_
          · rw [if_pos hfi] at h; dsimp only at h
            injection h with h1 h2; subst h1; simp [hl]
          · rw [if_neg hfi] at h; dsimp only at h; injection h
      case FI =>
        simp [matchTok, hl] at h
        obtain ⟨h1, h2⟩ := h
        subst h1
        simp [hl]
      all_goals injection h

/-- C4 witness: the `else_part` rules applied to concrete states — a bare
`fi`, a full `else home fi`, an `elsif 1 < 2 then home fi` chain, and a
`do` lookahead that throws. -/
theorem C4_else_part_cases_witness :
    else_part 6 (midState Token.FI ⟨"", 0⟩ [dTok Token.EOT])
      = PResult.ok none (nextTok (midState Token.FI ⟨"", 0⟩ [dTok Token.EOT])) ∧
    else_part 10 (midState Token.ELSE ⟨"", 0⟩ [dTok Token.HOME, dTok Token.FI, dTok Token.EOT])
      = PResult.ok (some (Stmt.BlockStmt [Stmt.HomeStmt]))
          (nextTok (midState Token.FI ⟨"", 0⟩ [dTok Token.EOT])) ∧
    else_part 10 (midState Token.ELSIF ⟨"", 0⟩
        [dReal 1, dTok Token.LT, dReal 2, dTok Token.THEN,
         dTok Token.HOME, dTok Token.FI, dTok Token.EOT])
      = PResult.ok (some (Stmt.IfStmt (Expr.l_t (Expr.ConstExpr 1) (Expr.ConstExpr 2))
            (Stmt.BlockStmt [Stmt.HomeStmt]) none))
          (midState Token.EOT ⟨"", 0⟩ []) ∧
    else_part 6 (midState Token.DO ⟨"", 0⟩ [])
      = PResult.err (PError.parseError "Expecting turtle else_part statement!")
          (midState Token.DO ⟨"", 0⟩ []) :=
  ⟨C4_else_part_cases.1 5 _ rfl,
   C4_else_part_cases.2.1 9 _ (Stmt.BlockStmt [Stmt.HomeStmt])
      (midState Token.FI ⟨"", 0⟩ [dTok Token.EOT]) rfl (by rfl) rfl,
   C4_else_part_cases.2.2.1 9 _ (Expr.l_t (Expr.ConstExpr 1) (Expr.ConstExpr 2))
      (midState Token.THEN ⟨"", 0⟩ [dTok Token.HOME, dTok Token.FI, dTok Token.EOT])
      (Stmt.BlockStmt [Stmt.HomeStmt])
      (midState Token.FI ⟨"", 0⟩ [dTok Token.EOT]) none
      (midState Token.EOT ⟨"", 0⟩ []) rfl (by rfl) rfl (by rfl) (by rfl),
   C4_else_part_cases.2.2.2.1 5 _ (by decide)⟩

/-- Inversion for the do-while loop of `block`: a successful run extends
the accumulator with at least one parsed statement in order, and ends
exactly when the lookahead stops being a statement starter. -/
lemma blockLoop_ok (fuel : Nat) :
    ∀ (acc : List Stmt) (s : ParserState) (l : List Stmt) (s1 : ParserState),
      blockLoop fuel acc s = PResult.ok l s1 →
      (∃ l2, l = acc ++ l2 ∧ l2 ≠ []) ∧ isStmtStart s1.lookahead_ = false := by
  induction fuel with
  | zero => intro acc s l s1 h; exact absurd h (by simp [blockLoop])
  | succ n ih =>
    intro acc s l s1 h
    simp only [blockLoop] at h
    cases hst : stmt n s with
    | err e s2 => rw [hst] at h; injection h
    | ok st s2 =>
      rw [hst] at h
      dsimp only at h
      by_cases hc : isStmtStart s2.lookahead_ = true
      · rw [if_pos hc] at h
        obtain ⟨⟨l2, hl2, hne⟩, hlast⟩ := ih _ _ _ _ h
        refine ⟨⟨st :: l2, ?_, by simp⟩, hlast⟩
        rw [hl2]; simp
      · rw [if_neg hc] at h
        injection h with h1 h2
        subst h1; subst h2
        exact ⟨⟨[st], rfl, by simp⟩, by simpa using hc⟩

/-- C7: `block` parses one or more statements: every successful result is
a nonempty `BlockStmt` whose final lookahead is no longer a statement
starter; a single statement followed by a non-starter still yields a
(one-element) `BlockStmt`; while the lookahead is a starter the loop
greedily continues, appending in parse order; and the continuation set is
exactly identifier, `while`, `if` and the eight turtle action tokens,
`pushstate`/`popstate` included. -/
theorem C7_block_greedy_nonempty :
    (∀ (fuel : Nat) (s : ParserState) (r : Stmt) (s1 : ParserState),
      block fuel s = PResult.ok r s1 →
      ∃ l, r = Stmt.BlockStmt l ∧ l ≠ [] ∧ isStmtStart s1.lookahead_ = false) ∧
    (∀ (fuel : Nat) (s : ParserState) (st1 : Stmt) (s1 : ParserState),
      stmt fuel s = PResult.ok st1 s1 → isStmtStart s1.lookahead_ = false →
      block (fuel + 2) s = PResult.ok (Stmt.BlockStmt [st1]) s1) ∧
    (∀ (fuel : Nat) (acc : List Stmt) (s : ParserState) (st1 : Stmt) (s1 : ParserState),
      stmt fuel s = PResult.ok st1 s1 → isStmtStart s1.lookahead_ = true →
      blockLoop (fuel + 1) acc s = blockLoop fuel (acc ++ [st1]) s1) ∧
    (∀ t : Token, isStmtStart t = true ↔
      t ∈ ([Token.IDENT, Token.WHILE, Token.IF, Token.HOME, Token.PENUP,
            Token.PENDOWN, Token.FORWARD, Token.LEFT, Token.RIGHT,
            Token.PUSHSTATE, Token.POPSTATE] : List Token)) ∧
    block 8 (nextTok (mkState
        [dTok Token.HOME, dTok Token.PUSHSTATE, dTok Token.POPSTATE, dTok Token.EOT]))
      = PResult.ok (Stmt.BlockStmt [Stmt.HomeStmt, Stmt.PushStateStmt, Stmt.PopStateStmt])
          (midState Token.EOT ⟨"", 0⟩ []) := by
  refine ⟨fun fuel s r s1 h => ?_, fun fuel s st1 s1 hst hlk => ?_,
          fun fuel acc s st1 s1 hst hlk => ?_, fun t => by cases t <;> decide, by rfl⟩
  · cases fuel with
    | zero => exact absurd h (by simp [block])
    | succ n =>
      simp only [block] at h
      cases hb : blockLoop n [] s with
      | err e s2 => rw [hb] at h; injection h
      | ok l s2 =>
        rw [hb] at h
        dsimp only at h
        injection h with h1 h2
        subst h1; subst h2
        obtain ⟨⟨l2, hl2, hne⟩, hlast⟩ := blockLoop_ok n [] s l s2 hb
        exact ⟨l, rfl, by simpa [hl2] using hne, hlast⟩
  · simp [block, blockLoop, hst, hlk]
  · simp [blockLoop, hst, hlk]

/-- C7 witness: a one-statement block still wrapped in `BlockStmt`, a
greedy continuation step, the inversion on a concrete run, and the
membership rule at `pushstate`. -/
theorem C7_block_greedy_nonempty_witness :
    block 12 (midState Token.HOME ⟨"", 0⟩ [dTok Token.EOT])
      = PResult.ok (Stmt.BlockStmt [Stmt.HomeStmt]) (midState Token.EOT ⟨"", 0⟩ []) ∧
    blockLoop 11 [] (midState Token.HOME ⟨"", 0⟩ [dTok Token.PENUP, dTok Token.EOT])
      = blockLoop 10 [Stmt.HomeStmt] (midState Token.PENUP ⟨"", 0⟩ [dTok Token.EOT]) ∧
    (∃ l, Stmt.BlockStmt [Stmt.HomeStmt] = Stmt.BlockStmt l ∧ l ≠ [] ∧
      isStmtStart (midState Token.EOT ⟨"", 0⟩ []).lookahead_ = false) ∧
    (isStmtStart Token.PUSHSTATE = true ↔
      Token.PUSHSTATE ∈ ([Token.IDENT, Token.WHILE, Token.IF, Token.HOME, Token.PENUP,
            Token.PENDOWN, Token.FORWARD, Token.LEFT, Token.RIGHT,
            Token.PUSHSTATE, Token.POPSTATE] : List Token)) :=
  ⟨C7_block_greedy_nonempty.2.1 10 _ Stmt.HomeStmt _ (by rfl) (by rfl),
   C7_block_greedy_nonempty.2.2.1 10 [] _ Stmt.HomeStmt
      (midState Token.PENUP ⟨"", 0⟩ [dTok Token.EOT]) (by rfl) (by rfl),
   C7_block_greedy_nonempty.1 12 (midState Token.HOME ⟨"", 0⟩ [dTok Token.EOT])
      (Stmt.BlockStmt [Stmt.HomeStmt]) (midState Token.EOT ⟨"", 0⟩ [])
      (C7_block_greedy_nonempty.2.1 10 _ Stmt.HomeStmt _ (by rfl) (by rfl)),
   C7_block_greedy_nonempty.2.2.2.1 Token.PUSHSTATE⟩

/-! Generic additive and multiplicative operator chains, used to state
left-associativity of `expr` and `term` for chains of any length.  Each
chain entry is an operator choice (`true` for the first operator of the
pair) and the literal that follows it. -/

/-- Scanner deliveries for the tail of an additive chain: `+`/`-` then a
literal, per entry. -/
def chainTail : List (Bool × Rat) → List ScanTok
  | [] => []
  | p :: rest =>
      dTok (if p.1 then Token.PLUS else Token.MINUS) :: dReal p.2 :: chainTail rest

/-- Scanner deliveries for the tail of a multiplicative chain: `*`/`/`
then a literal, per entry. -/
def mulChainTail : List (Bool × Rat) → List ScanTok
  | [] => []
  | p :: rest =>
      dTok (if p.1 then Token.MULT else Token.DIV) :: dReal p.2 :: mulChainTail rest

/-- The left-associative `AddExpr`/`SubExpr` chain over an accumulator,
exactly as the `expr` loop builds it. -/
def foldChain (e : Expr) : List (Bool × Rat) → Expr
  | [] => e
  | p :: rest =>
      foldChain (if p.1 then Expr.AddExpr e (Expr.ConstExpr p.2)
                 else Expr.SubExpr e (Expr.ConstExpr p.2)) rest

/-- The left-associative `MulExpr`/`DivExpr` chain over an accumulator,
exactly as the `term` loop builds it. -/
def foldMulChain (e : Expr) : List (Bool × Rat) → Expr
  | [] => e
  | p :: rest =>
      foldMulChain (if p.1 then Expr.MulExpr e (Expr.ConstExpr p.2)
                    else Expr.DivExpr e (Expr.ConstExpr p.2)) rest

/-- The parser state at the top of the `expr` loop while an additive
chain remains: the next operator in the lookahead, the rest buffered. -/
def chainState : List (Bool × Rat) → Attr → ParserState
  | [], a => midState Token.EOT a []
  | p :: rest, a =>
      midState (if p.1 then Token.PLUS else Token.MINUS) a
        (dReal p.2 :: chainTail rest ++ [dTok Token.EOT])

/-- The parser state at the top of the `term` loop while a multiplicative
chain remains. -/
def mulChainState : List (Bool × Rat) → Attr → ParserState
  | [], a => midState Token.EOT a []
  | p :: rest, a =>
      midState (if p.1 then Token.MULT else Token.DIV) a
        (dReal p.2 :: mulChainTail rest ++ [dTok Token.EOT])

/-- The attribute left in the parser after a chain is consumed: untouched
when the chain was empty, otherwise the blank attribute of the last
delivered operator/end token. -/
def chainAttr : List (Bool × Rat) → Attr → Attr
  | [], a => a
  | _ :: _, _ => ⟨"", 0⟩

lemma chainAttr_self (ops : List (Bool × Rat)) :
    chainAttr ops (⟨"", 0⟩ : Attr) = ⟨"", 0⟩ := by
  cases ops <;> rfl

/-- A REAL lookahead whose buffer continues with an additive chain parses
as a one-factor term, landing on the chain's next operator. -/
lemma term_chain_const (f : Nat) (hf : 2 ≤ f) (a : Attr) (rest : List (Bool × Rat)) :
    term f (midState Token.REAL a (chainTail rest ++ [dTok Token.EOT]))
      = PResult.ok (Expr.ConstExpr a.f) (chainState rest (⟨"", 0⟩ : Attr)) := by
  obtain ⟨g, rfl⟩ : ∃ g, f = g + 1 := ⟨f - 1, by omega⟩
  obtain ⟨h, rfl⟩ : ∃ h, g = h + 1 := ⟨g - 1, by omega⟩
  cases rest with
  | nil =>
      simp [term, factor, termLoop, matchTok, nextTok, chainTail, chainState,
            midState, dTok]
  | cons p t =>
      cases hp : p.1 <;>
        simp [term, factor, termLoop, matchTok, nextTok, chainTail, chainState,
              midState, dTok, dReal, hp]

/-- A REAL lookahead whose buffer continues with a multiplicative chain
parses as a constant factor, landing on the chain's next operator. -/
lemma factor_chain_const (f : Nat) (hf : 1 ≤ f) (a : Attr) (rest : List (Bool × Rat)) :
    factor f (midState Token.REAL a (mulChainTail rest ++ [dTok Token.EOT]))
      = PResult.ok (Expr.ConstExpr a.f) (mulChainState rest (⟨"", 0⟩ : Attr)) := by
  obtain ⟨g, rfl⟩ : ∃ g, f = g + 1 := ⟨f - 1, by omega⟩
  cases rest with
  | nil =>
      simp [factor, matchTok, nextTok, mulChainTail, mulChainState, midState, dTok]
  | cons p t =>
      cases hp : p.1 <;>
        simp [factor, matchTok, nextTok, mulChainTail, mulChainState, midState,
              dTok, dReal, hp]

/-- The `expr` loop folds an entire additive chain left-associatively
onto its accumulator. -/
lemma exprLoop_chain (ops : List (Bool × Rat)) :
    ∀ (fuel : Nat) (e : Expr) (a : Attr), ops.length + 3 ≤ fuel →
      exprLoop fuel e (chainState ops a)
        = PResult.ok (foldChain e ops) (midState Token.EOT (chainAttr ops a) []) := by
  induction ops with
  | nil =>
      intro fuel e a hle
      obtain ⟨f, rfl⟩ : ∃ f, fuel = f + 1 := ⟨fuel - 1, by omega⟩
      simp [exprLoop, chainState, chainAttr, foldChain, midState]
  | cons p rest ih =>
      intro fuel e a hle
      obtain ⟨f, rfl⟩ : ∃ f, fuel = f + 1 := ⟨fuel - 1, by omega⟩
      have hterm := term_chain_const f (by simp at hle; omega) ⟨"", p.2⟩ rest
      have hih := fun e2 => ih f e2 (⟨"", 0⟩ : Attr) (by simp at hle; omega)
      simp only [midState, dTok, dReal] at hterm hih
      simp only [chainAttr_self] at hih
      have hca : chainAttr (p :: rest) a = (⟨"", 0⟩ : Attr) := rfl
      have hcs : chainState (p :: rest) a
          = midState (if p.1 then Token.PLUS else Token.MINUS) a
              (dReal p.2 :: chainTail rest ++ [dTok Token.EOT]) := rfl
      rw [hcs, hca]
      cases hp : p.1 <;>
        simp [exprLoop, midState, matchTok, nextTok, dTok, dReal, hp, hterm, hih,
              foldChain]

/-- The `term` loop folds an entire multiplicative chain
left-associatively onto its accumulator. -/
lemma termLoop_chain (ops : List (Bool × Rat)) :
    ∀ (fuel : Nat) (e : Expr) (a : Attr), ops.length + 2 ≤ fuel →
      termLoop fuel e (mulChainState ops a)
        = PResult.ok (foldMulChain e ops) (midState Token.EOT (chainAttr ops a) []) := by
  induction ops with
  | nil =>
      intro fuel e a hle
      obtain ⟨f, rfl⟩ : ∃ f, fuel = f + 1 := ⟨fuel - 1, by omega⟩
      simp [termLoop, mulChainState, chainAttr, foldMulChain, midState]
  | cons p rest ih =>
      intro fuel e a hle
      obtain ⟨f, rfl⟩ : ∃ f, fuel = f + 1 := ⟨fuel - 1, by omega⟩
      have hfac := factor_chain_const f (by simp at hle; omega) ⟨"", p.2⟩ rest
      have hih := fun e2 => ih f e2 (⟨"", 0⟩ : Attr) (by simp at hle; omega)
      simp only [midState, dTok, dReal] at hfac hih
      simp only [chainAttr_self] at hih
      have hca : chainAttr (p :: rest) a = (⟨"", 0⟩ : Attr) := rfl
      have hcs : mulChainState (p :: rest) a
          = midState (if p.1 then Token.MULT else Token.DIV) a
              (dReal p.2 :: mulChainTail rest ++ [dTok Token.EOT]) := rfl
      rw [hcs, hca]
      cases hp : p.1 <;>
        simp [termLoop, midState, matchTok, nextTok, dTok, dReal, hp, hfac, hih,
              foldMulChain]

/-- C3: `expr` builds a left-associative `AddExpr`/`SubExpr` chain over
term results and `term` builds a left-associative `MulExpr`/`DivExpr`
chain over factor results, for chains of any length; in particular
`2+3*4` parses as `Add(2, Mul(3, 4))` and evaluates to `14` (not `20`),
and `10-3-2` parses as `Sub(Sub(10, 3), 2)` and evaluates to `5`. -/
theorem C3_expr_term_left_assoc :
    (∀ (a : Rat) (ops : List (Bool × Rat)),
      expr (ops.length + 4)
          (nextTok (mkState (dReal a :: chainTail ops ++ [dTok Token.EOT])))
        = PResult.ok (foldChain (Expr.ConstExpr a) ops)
            (midState Token.EOT ⟨"", 0⟩ [])) ∧
    (∀ (a : Rat) (ops : List (Bool × Rat)),
      term (ops.length + 3)
          (nextTok (mkState (dReal a :: mulChainTail ops ++ [dTok Token.EOT])))
        = PResult.ok (foldMulChain (Expr.ConstExpr a) ops)
            (midState Token.EOT ⟨"", 0⟩ [])) ∧
    expr 8 (nextTok (mkState
        [dReal 2, dTok Token.PLUS, dReal 3, dTok Token.MULT, dReal 4, dTok Token.EOT]))
      = PResult.ok
          (Expr.AddExpr (Expr.ConstExpr 2)
            (Expr.MulExpr (Expr.ConstExpr 3) (Expr.ConstExpr 4)))
          (midState Token.EOT ⟨"", 0⟩ []) ∧
    evalE (fun _ => none)
        (Expr.AddExpr (Expr.ConstExpr 2)
          (Expr.MulExpr (Expr.ConstExpr 3) (Expr.ConstExpr 4))) = some 14 ∧
    (14 : Rat) ≠ 20 ∧
    expr 8 (nextTok (mkState
        [dReal 10, dTok Token.MINUS, dReal 3, dTok Token.MINUS, dReal 2, dTok Token.EOT]))
      = PResult.ok
          (Expr.SubExpr (Expr.SubExpr (Expr.ConstExpr 10) (Expr.ConstExpr 3))
            (Expr.ConstExpr 2))
          (midState Token.EOT ⟨"", 0⟩ []) ∧
    evalE (fun _ => none)
        (Expr.SubExpr (Expr.SubExpr (Expr.ConstExpr 10) (Expr.ConstExpr 3))
          (Expr.ConstExpr 2)) = some 5 := by
  refine ⟨fun a ops => ?_, fun a ops => ?_, by rfl, by norm_num [evalE], by norm_num,
          by rfl, by norm_num [evalE]⟩
  · have h1 : nextTok (mkState (dReal a :: chainTail ops ++ [dTok Token.EOT]))
        = midState Token.REAL ⟨"", a⟩ (chainTail ops ++ [dTok Token.EOT]) := rfl
    have hterm := term_chain_const (ops.length + 3) (by omega) ⟨"", a⟩ ops
    have hloop := exprLoop_chain ops (ops.length + 3) (Expr.ConstExpr a)
        (⟨"", 0⟩ : Attr) (by omega)
    rw [h1]
    simp only [expr]
    rw [hterm]
    simp [hloop, chainAttr_self]
  · have h1 : nextTok (mkState (dReal a :: mulChainTail ops ++ [dTok Token.EOT]))
        = midState Token.REAL ⟨"", a⟩ (mulChainTail ops ++ [dTok Token.EOT]) := rfl
    have hfac := factor_chain_const (ops.length + 2) (by omega) ⟨"", a⟩ ops
    have hloop := termLoop_chain ops (ops.length + 2) (Expr.ConstExpr a)
        (⟨"", 0⟩ : Attr) (by omega)
    rw [h1]
    simp only [term]
    rw [hfac]
    simp [hloop, chainAttr_self]

end TurtleParser
